import Mathlib

/-!
# Chatify message-synchronization core: shallow embedding

This file embeds the message store, the socket fan-out and the client
reconciliation engine of the chatify repository, and proves the spec's
claims about them.

Conventions of the embedding:
* Mongo `ObjectId`s are modelled as `Nat`; `Date` values as `Nat`.
* A Mongo collection is a list of records in insertion (creation) order,
  which is the natural order `Message.find` enumerates.
* Optional document fields are `Option` values; an absent field is `none`.
* Controller failure responses are a `StoreError` value; controller side
  effects on the collection are made explicit by returning the updated
  collection alongside the response.
-/

namespace Chatify

/-- Persistent message record, from `backend/src/models/Message.js`
(`messageSchema`).  The schema defaults are the field defaults:
`deletedForEveryone: false`, `deletedFor: []`, `read: false`,
`isPinned: false`; `pinnedAt`/`pinnedBy` are absent (`none`) by default. -/
structure Message where
  id : Nat
  senderId : Nat
  receiverId : Nat
  text : Option String := none
  image : Option String := none
  deletedForEveryone : Bool := false
  deletedFor : List Nat := []
  read : Bool := false
  isPinned : Bool := false
  pinnedAt : Option Nat := none
  pinnedBy : Option Nat := none
  createdAt : Nat := 0
deriving DecidableEq, Repr

/-- The message collection, in creation order. -/
abbrev Store := List Message

/-- Error taxonomy of the message controller (spec §7).  Each constructor
corresponds to one early-return response of `message.controller.js`. -/
inductive StoreError where
  | validationError
  | selfMessageError
  | notFoundError
  | forbiddenError
  | alreadyDeletedError
deriving DecidableEq, Repr

/-- The query filter of `getMessagesByUserId` (`message.controller.js`):
the message is between `myId` and `userToChatId` (either direction),
`deletedForEveryone` is not true, and `myId` is not in `deletedFor`.
`$ne` on the array field `deletedFor` means non-membership. -/
def conversationVisible (myId userToChatId : Nat) (m : Message) : Bool :=
  ((m.senderId == myId && m.receiverId == userToChatId) ||
    (m.senderId == userToChatId && m.receiverId == myId)) &&
  !m.deletedForEveryone && !(m.deletedFor.contains myId)

/-- `getMessagesByUserId` (`message.controller.js`): `Message.find` with the
combined conversation/visibility filter, in natural (creation) order. -/
def getMessagesByUserId (myId userToChatId : Nat) (store : Store) : List Message :=
  store.filter (conversationVisible myId userToChatId)

/-- Filter of the first `Message.find` of `getChatPartners`: the logged-in
user is sender or receiver. -/
def involves (u : Nat) (m : Message) : Bool :=
  m.senderId == u || m.receiverId == u

/-- The counterpart of a message from the point of view of the logged-in
user, as computed by the `map` inside `getChatPartners`. -/
def partnerOf (loggedInUserId : Nat) (m : Message) : Nat :=
  if m.senderId == loggedInUserId then m.receiverId else m.senderId

/-- One step of `new Set(...)`: keep the first occurrence of each id. -/
def insertNew (acc : List Nat) (x : Nat) : List Nat :=
  if acc.contains x then acc else acc ++ [x]

/-- `chatPartnerIds` of `getChatPartners`: the distinct counterpart ids, in
first-occurrence order (JS `Set` iteration order). -/
def chatPartnerIds (loggedInUserId : Nat) (store : Store) : List Nat :=
  ((store.filter (involves loggedInUserId)).map (partnerOf loggedInUserId)).foldl insertNew []

/-- The `countDocuments` filter of `getChatPartners`: unread messages from
the partner to the logged-in user, excluding messages hidden from the
logged-in user by either deletion mechanism. -/
def unreadCountQuery (partnerId loggedInUserId : Nat) (m : Message) : Bool :=
  m.senderId == partnerId && m.receiverId == loggedInUserId && !m.read &&
  !m.deletedForEveryone && !(m.deletedFor.contains loggedInUserId)

/-- `getChatPartners` (`message.controller.js`, current revision): each
partner id paired with its `unreadCount`. -/
def getChatPartners (loggedInUserId : Nat) (store : Store) : List (Nat × Nat) :=
  (chatPartnerIds loggedInUserId store).map
    (fun p => (p, store.countP (unreadCountQuery p loggedInUserId)))

/-- JS truthiness of an optional string field: `undefined` and `""` are
falsy, so `!text && !image` rejects an empty-string text with no image. -/
def truthy : Option String → Bool
  | none => false
  | some s => !s.isEmpty

/-- The record `new Message({senderId, receiverId, text, image})` builds:
all remaining fields take the schema defaults. -/
def newMessageRecord (senderId receiverId : Nat) (text image : Option String)
    (freshId now : Nat) : Message :=
  { id := freshId, senderId := senderId, receiverId := receiverId,
    text := text, image := image, createdAt := now }

/-- `sendMessage` (`message.controller.js`): validation, self-send and
receiver-existence checks in source order, then persist one record built
from the schema defaults.  `users` is the user collection (ids);
`freshId`/`now` stand for the server-assigned id and timestamp.  The
cloudinary upload is an external collaborator; its resulting URL is the
`image` payload. -/
def sendMessage (senderId receiverId : Nat) (text image : Option String)
    (users : List Nat) (freshId now : Nat) (store : Store) :
    Except StoreError Message × Store :=
  if !truthy text && !truthy image then (.error .validationError, store)
  else if senderId == receiverId then (.error .selfMessageError, store)
  else if !(users.contains receiverId) then (.error .notFoundError, store)
  else
    let newMessage : Message := newMessageRecord senderId receiverId text image freshId now
    (.ok newMessage, store ++ [newMessage])

/-- The `updateMany` filter of `markMessagesAsRead`: unread messages from
`userToChatId` to `myId`. -/
def unreadFrom (userToChatId myId : Nat) (m : Message) : Bool :=
  m.senderId == userToChatId && m.receiverId == myId && !m.read

/-- `markMessagesAsRead` (`message.controller.js`): `updateMany` setting
`read: true` on every matching record; the first component is the
`modifiedCount` of the update result. -/
def markMessagesAsRead (myId userToChatId : Nat) (store : Store) : Nat × Store :=
  (store.countP (unreadFrom userToChatId myId),
   store.map (fun m => if unreadFrom userToChatId myId m then { m with read := true } else m))

/-- `Message.findById`: the first record with the given id. -/
def findById (messageId : Nat) (store : Store) : Option Message :=
  store.find? (fun m => m.id == messageId)

/-- `deleteMessageForEveryone` (`message.controller.js`): 404 if absent,
403 unless the actor is the sender, else set the terminal flag and save. -/
def deleteMessageForEveryone (userId messageId : Nat) (store : Store) :
    Except StoreError Unit × Store :=
  match findById messageId store with
  | none => (.error .notFoundError, store)
  | some message =>
    if message.senderId != userId then (.error .forbiddenError, store)
    else
      (.ok (), store.map fun m =>
        if m.id == messageId then { m with deletedForEveryone := true } else m)

/-- `deleteMessageForMe` (`message.controller.js`): 404 if absent, 403
unless the actor is a participant, 400 if the actor is already in
`deletedFor`, else push the actor onto `deletedFor` and save. -/
def deleteMessageForMe (userId messageId : Nat) (store : Store) :
    Except StoreError Unit × Store :=
  match findById messageId store with
  | none => (.error .notFoundError, store)
  | some message =>
    if message.senderId != userId && message.receiverId != userId then
      (.error .forbiddenError, store)
    else if message.deletedFor.contains userId then
      (.error .alreadyDeletedError, store)
    else
      (.ok (), store.map fun m =>
        if m.id == messageId then { m with deletedFor := m.deletedFor ++ [userId] } else m)

/-- A pin-state operation on one message: pin by an actor at a time, or
unpin. -/
inductive PinOp where
  | pin (actor now : Nat)
  | unpin
deriving DecidableEq, Repr

/-- Pin-state change of a single message record.  The `pin` case is
modelled from the spec (§4.1): the `pinMessage` controller is imported by
`message.route.js` but its body is not in the repository snapshot; the
spec says pin sets `isPinned=true, pinnedAt=now, pinnedBy=actor`.  The
`unpin` case clears all three fields, exactly the field assignment the
client `messageUnpinned` handler in `ChatContainer.jsx` performs. -/
def applyPinOp (m : Message) : PinOp → Message
  | .pin actor now =>
    { m with isPinned := true, pinnedAt := some now, pinnedBy := some actor }
  | .unpin =>
    { m with isPinned := false, pinnedAt := none, pinnedBy := none }

/-- Modelled from the spec: store-level `pinMessage` (controller body not
in the snapshot; routes import it).  Spec §4.1: pin stamps the matching
record with `isPinned=true, pinnedAt=now, pinnedBy=actor`. -/
def pinMessage (actor messageId now : Nat) (store : Store) : Store :=
  store.map fun m => if m.id == messageId then applyPinOp m (.pin actor now) else m

/-- Modelled from the spec: store-level `unpinMessage` (controller body not
in the snapshot; routes import it).  Spec §4.1: unpin clears `isPinned`,
`pinnedAt` and `pinnedBy` together. -/
def unpinMessage (messageId : Nat) (store : Store) : Store :=
  store.map fun m => if m.id == messageId then applyPinOp m .unpin else m

/-- Data-model invariant from the spec: `pinnedAt`/`pinnedBy` are both null
iff `isPinned` is false. -/
def pinFieldsConsistent (m : Message) : Prop :=
  (m.pinnedAt = none ∧ m.pinnedBy = none) ↔ m.isPinned = false

/-- The `messageUnpinned` socket handler of the client chat store
(`ChatContainer.jsx` snapshot): clear the pin fields of the matching
message and drop it from the pinned list. -/
def messageUnpinnedHandler (messageId : Nat) (messages pinnedMessages : List Message) :
    List Message × List Message :=
  (messages.map fun m => if m.id == messageId then applyPinOp m .unpin else m,
   pinnedMessages.filter fun m => !(m.id == messageId))

/-- One store mutation, for stating properties over arbitrary interleavings
of operations. -/
inductive Op where
  | send (senderId receiverId : Nat) (text image : Option String)
      (users : List Nat) (freshId now : Nat)
  | markRead (myId userToChatId : Nat)
  | delForEveryone (userId messageId : Nat)
  | delForMe (userId messageId : Nat)
  | pinOp (actor messageId now : Nat)
  | unpinOp (messageId : Nat)

/-- Effect of one operation on the collection (failed calls leave it
unchanged, as the controllers return before any save). -/
def applyOp (store : Store) : Op → Store
  | .send a b t img us fid now => (sendMessage a b t img us fid now store).2
  | .markRead a b => (markMessagesAsRead a b store).2
  | .delForEveryone u mid => (deleteMessageForEveryone u mid store).2
  | .delForMe u mid => (deleteMessageForMe u mid store).2
  | .pinOp a mid now => pinMessage a mid now store
  | .unpinOp mid => unpinMessage mid store

/-- Effect of a sequence of operations. -/
def applyOps (store : Store) (ops : List Op) : Store :=
  ops.foldl applyOp store

/-! ## Socket fan-out (delivery coordinator)

The emissions of the two controller paths that produce an
`unreadCountUpdate` event, transcribed from `message.controller.js`:
`sendMessage` emits to the receiver's socket (if connected) a `newMessage`
event followed by `unreadCountUpdate` with a `{ senderId }` payload;
`markMessagesAsRead` emits to the original sender's socket, only when
`modifiedCount > 0`, a `messagesRead` event followed by a bare
`io.to(...).emit("unreadCountUpdate")` with no payload. -/

/-- A socket event together with its payload.  The `unreadCountUpdate`
payload is the sender id carried in the `{ senderId }` object, or `none`
when the event is emitted with no payload at all. -/
inductive SocketEvent where
  | newMessage (m : Message)
  | unreadCountUpdate (payload : Option Nat)
  | messagesRead (readBy readAt : Nat)
  | messageDeletedForEveryone (messageId : Nat)
deriving DecidableEq, Repr

/-- Events emitted by the `sendMessage` controller after a successful save
(`message.controller.js`): both go to the receiver's socket when one is
registered, and the `unreadCountUpdate` payload is the sender's id. -/
def sendMessageEvents (senderId : Nat) (newMessage : Message)
    (receiverSocketId : Option Nat) : List (Nat × SocketEvent) :=
  match receiverSocketId with
  | some sid => [(sid, .newMessage newMessage), (sid, .unreadCountUpdate (some senderId))]
  | none => []

/-- Events emitted by the `markMessagesAsRead` controller
(`message.controller.js`): when the update modified at least one record and
the original sender has a socket, a `messagesRead` event and an
`unreadCountUpdate` event emitted with no payload. -/
def markMessagesAsReadEvents (myId readAt modifiedCount : Nat)
    (senderSocketId : Option Nat) : List (Nat × SocketEvent) :=
  if 0 < modifiedCount then
    match senderSocketId with
    | some sid => [(sid, .messagesRead myId readAt), (sid, .unreadCountUpdate none)]
    | none => []
  else []

/-- Whether an event, if it is an `unreadCountUpdate`, carries a sender id
in its payload. -/
def carriesSenderId : SocketEvent → Bool
  | .unreadCountUpdate none => false
  | _ => true

/-! ## Client reconciliation engine (`useChatStore`) -/

/-- Client-side message record as the chat store builds it: ids are strings
because optimistic entries use a local `temp-...` id while server records
use the server-assigned id. -/
structure ClientMessage where
  id : String
  senderId : Nat
  receiverId : Nat
  text : Option String := none
  image : Option String := none
  createdAt : Nat := 0
  isOptimistic : Bool := false
deriving DecidableEq, Repr

/-- The optimistic entry built by the client `sendMessage`
(`useChatStore`): temp id, the authenticated user as sender, the selected
user as receiver, flagged `isOptimistic`. -/
def optimisticMessage (tempId : String) (authUserId selectedUserId : Nat)
    (text image : Option String) (now : Nat) : ClientMessage :=
  { id := tempId, senderId := authUserId, receiverId := selectedUserId,
    text := text, image := image, createdAt := now, isOptimistic := true }

/-- The client `sendMessage` flow (`useChatStore`): the first `set` appends
the optimistic entry to the captured pre-send list; on a success response
the list is set to the captured pre-send list plus the confirmed record
(`messages.concat(res.data)`); on failure it is set back to the captured
pre-send list.  Returns (in-flight list, final list); `response` is the
confirmed server record, or `none` on request failure. -/
def clientSendMessage (messages : List ClientMessage) (optimistic : ClientMessage)
    (response : Option ClientMessage) : List ClientMessage × List ClientMessage :=
  (messages ++ [optimistic],
   match response with
   | some serverMessage => messages ++ [serverMessage]
   | none => messages)

/-- Client chat-list entry (`chats` in `useChatStore`): the partner's user
record with the attached `unreadCount`.  `fullName` stands for the other
user fields preserved by the `...chat` spread; `unreadCount` is `none`
when the field is absent (JS `undefined`), which `|| 0` defaults to 0. -/
structure Chat where
  id : Nat
  fullName : String := ""
  unreadCount : Option Nat := none
deriving DecidableEq, Repr

/-- `updateUnreadCount` of the client chat store (`useChatStore` snapshot):
map over `chats`, and on the entry whose `_id` equals `userId` either
increment `unreadCount` (defaulting a missing count to 0) or reset it to
0; all other entries pass through the `map` unchanged. -/
def updateChatEntry (increment : Bool) (chat : Chat) : Chat :=
  { chat with unreadCount := some (if increment then chat.unreadCount.getD 0 + 1 else 0) }

/-- The full `updateUnreadCount` map over the `chats` list. -/
def updateUnreadCount (userId : Nat) (increment : Bool) (chats : List Chat) : List Chat :=
  chats.map fun chat =>
    if chat.id == userId then updateChatEntry increment chat
    else chat

/-! ## Spec-side predicates

These definitions follow the words of the spec/claims, to be compared with
the query filters transcribed from the source. -/

/-- Spec wording (claim C1): the message's unordered sender/receiver pair
is exactly the viewer/peer pair. -/
def SameConversation (viewer peer : Nat) (m : Message) : Prop :=
  (m.senderId = viewer ∧ m.receiverId = peer) ∨
  (m.senderId = peer ∧ m.receiverId = viewer)

/-- Spec wording (claims C1, C2): the message is not hidden from the viewer
by either deletion mechanism. -/
def VisibleTo (viewer : Nat) (m : Message) : Prop :=
  m.deletedForEveryone = false ∧ viewer ∉ m.deletedFor

/-- Spec wording (claim C2): the number of messages with sender = partner,
receiver = viewer, `read = false`, not deleted for everyone and viewer not
in `deletedFor`. -/
def specUnreadCount (viewer partner : Nat) (store : Store) : Nat :=
  (store.filter fun m =>
    decide (m.senderId = partner ∧ m.receiverId = viewer ∧ m.read = false ∧
      m.deletedForEveryone ≠ true ∧ viewer ∉ m.deletedFor)).length

/-- Creation-time ascending ordering of a message sequence. -/
def CreatedAtSorted (l : List Message) : Prop :=
  l.Pairwise (fun a b => a.createdAt ≤ b.createdAt)

/-! ## Concrete fixtures

Small concrete records used to instantiate the theorems below. -/

/-- A message from user 1 to user 2. -/
def demoMsgA : Message :=
  { id := 1, senderId := 1, receiverId := 2, text := some "hi", createdAt := 1 }

/-- An unread reply from user 2 to user 1. -/
def demoMsgB : Message :=
  { id := 2, senderId := 2, receiverId := 1, text := some "yo", createdAt := 2 }

/-- A message of a different conversation (user 3 to user 1). -/
def demoMsgC : Message :=
  { id := 3, senderId := 3, receiverId := 1, text := some "zz", createdAt := 3 }

/-- A three-message store covering two conversations. -/
def demoStore : Store := [demoMsgA, demoMsgB, demoMsgC]

instance (viewer peer : Nat) (m : Message) : Decidable (SameConversation viewer peer m) :=
  inferInstanceAs (Decidable ((m.senderId = viewer ∧ m.receiverId = peer) ∨
    (m.senderId = peer ∧ m.receiverId = viewer)))

instance (viewer : Nat) (m : Message) : Decidable (VisibleTo viewer m) :=
  inferInstanceAs (Decidable (m.deletedForEveryone = false ∧ viewer ∉ m.deletedFor))

instance (l : List Message) : Decidable (CreatedAtSorted l) :=
  inferInstanceAs (Decidable (l.Pairwise fun a b : Message => a.createdAt ≤ b.createdAt))

instance (m : Message) : Decidable (pinFieldsConsistent m) :=
  inferInstanceAs (Decidable ((m.pinnedAt = none ∧ m.pinnedBy = none) ↔ m.isPinned = false))

/-! ## Theorems -/

/-- Bridge between the `Bool`-valued membership test the queries use and
propositional membership. -/
theorem elem_eq_false_iff (a : Nat) (l : List Nat) : l.elem a = false ↔ a ∉ l := by
  rw [Bool.eq_false_iff, Ne, List.elem_iff]

/-- C1: for every viewer and peer, `getMessagesByUserId` returns exactly
the messages whose unordered sender/receiver pair is {viewer, peer} and
which have `deletedForEveryone = false` and viewer not in `deletedFor`
(so no message of another conversation and no message hidden by either
deletion mechanism relative to the viewer appears), and it preserves
creation-time ascending order. -/
theorem c1_list_conversation_contract (viewer peer : Nat) (store : Store) :
    (∀ m : Message, m ∈ getMessagesByUserId viewer peer store ↔
      m ∈ store ∧ SameConversation viewer peer m ∧ VisibleTo viewer m) ∧
    (CreatedAtSorted store → CreatedAtSorted (getMessagesByUserId viewer peer store)) := by
  constructor
  · intro m
    rw [getMessagesByUserId, List.mem_filter]
    simp only [conversationVisible, SameConversation, VisibleTo, Bool.and_eq_true,
      Bool.or_eq_true, beq_iff_eq, Bool.not_eq_true']
    simp only [List.contains, elem_eq_false_iff]
    tauto
  · intro h
    exact h.filter _

/-- Witness for C1 at concrete inputs: in `demoStore`, viewer 1 against
peer 2 sees exactly `demoMsgA` and `demoMsgB` (not `demoMsgC`, which is
another conversation), and the result stays in creation order. -/
theorem c1_witness :
    demoMsgA ∈ getMessagesByUserId 1 2 demoStore ∧
    ¬ demoMsgC ∈ getMessagesByUserId 1 2 demoStore ∧
    CreatedAtSorted (getMessagesByUserId 1 2 demoStore) := by
  have h := c1_list_conversation_contract 1 2 demoStore
  refine ⟨(h.1 demoMsgA).mpr ⟨by decide, by decide, by decide⟩, ?_, h.2 (by decide)⟩
  intro hc
  have := (h.1 demoMsgC).mp hc
  revert this
  decide

/-- C2: each chat partner returned by `getChatPartners` carries an
`unreadCount` equal to the number of messages with sender = partner,
receiver = viewer, `read = false`, `deletedForEveryone` not true and the
viewer not in `deletedFor` (the spec-worded count `specUnreadCount`).
The statement holds for every store, hence in particular for the store
after any interleaving of send, mark-read and delete operations. -/
theorem c2_chat_partner_unread_count (viewer : Nat) (store : Store) :
    ∀ p ∈ getChatPartners viewer store, p.2 = specUnreadCount viewer p.1 store := by
  intro p hp
  rw [getChatPartners, List.mem_map] at hp
  obtain ⟨q, hq, rfl⟩ := hp
  show store.countP (unreadCountQuery q viewer) = specUnreadCount viewer q store
  rw [specUnreadCount, List.countP_eq_length_filter]
  congr 1
  apply List.filter_congr
  intro m _
  rw [Bool.eq_iff_iff]
  simp only [unreadCountQuery, Bool.and_eq_true, beq_iff_eq, Bool.not_eq_true',
    List.contains, elem_eq_false_iff, decide_eq_true_eq, Bool.not_eq_true]
  tauto

/-- Witness for C2 at concrete inputs: in `demoStore`, viewer 1 sees
partner 2 with one unread message, matching the spec-worded count. -/
theorem c2_witness : specUnreadCount 1 2 demoStore = 1 := by
  have h := c2_chat_partner_unread_count 1 demoStore (2, 1) (by decide)
  exact h.symm

/-- C3: `sendMessage` fails with `ValidationError` when neither text nor
image is present (JS-falsy payloads), with `SelfMessageError` when sender
equals receiver, with `NotFoundError` when the receiver does not resolve
(checks in source order); every failure leaves the store unchanged, and a
success persists exactly one record with `deletedForEveryone = false`,
`deletedFor = []`, `read = false` and null pin fields. -/
theorem c3_send_message_contract (senderId receiverId : Nat) (text image : Option String)
    (users : List Nat) (freshId now : Nat) (store : Store) :
    (truthy text = false → truthy image = false →
      sendMessage senderId receiverId text image users freshId now store =
        (.error .validationError, store)) ∧
    ((truthy text = true ∨ truthy image = true) → senderId = receiverId →
      sendMessage senderId receiverId text image users freshId now store =
        (.error .selfMessageError, store)) ∧
    ((truthy text = true ∨ truthy image = true) → senderId ≠ receiverId →
      receiverId ∉ users →
      sendMessage senderId receiverId text image users freshId now store =
        (.error .notFoundError, store)) ∧
    (∀ e, (sendMessage senderId receiverId text image users freshId now store).1 = .error e →
      (sendMessage senderId receiverId text image users freshId now store).2 = store) ∧
    ((truthy text = true ∨ truthy image = true) → senderId ≠ receiverId →
      receiverId ∈ users →
      ∃ nm : Message,
        sendMessage senderId receiverId text image users freshId now store =
          (.ok nm, store ++ [nm]) ∧
        nm.deletedForEveryone = false ∧ nm.deletedFor = [] ∧ nm.read = false ∧
        nm.isPinned = false ∧ nm.pinnedAt = none ∧ nm.pinnedBy = none) := by
  refine ⟨?_, ?_, ?_, ?_, ?_⟩
  · intro h1 h2
    simp [sendMessage, h1, h2]
  · intro hp he
    rcases hp with h | h <;> simp [sendMessage, h, he]
  · intro hp hne hmem
    rcases hp with h | h <;> simp [sendMessage, h, hne] <;> exact hmem
  · intro e
    simp only [sendMessage]
    split
    · intro; rfl
    · split
      · intro; rfl
      · split
        · intro; rfl
        · intro h
          exact absurd h (by simp)
  · intro hp hne hmem
    refine ⟨newMessageRecord senderId receiverId text image freshId now,
      ?_, rfl, rfl, rfl, rfl, rfl, rfl⟩
    rcases hp with h | h <;> simp [sendMessage, h, hne, hmem]

/-- Witness for C3 at concrete inputs: an empty-text, no-image send fails
with `ValidationError`; a self-send with text fails with
`SelfMessageError`; a valid send to an existing user appends one record
with the default flags. -/
theorem c3_witness :
    sendMessage 1 2 (some "") none [1, 2] 9 9 demoStore =
      (.error .validationError, demoStore) ∧
    sendMessage 1 1 (some "hi") none [1, 2] 9 9 demoStore =
      (.error .selfMessageError, demoStore) ∧
    ∃ nm : Message, sendMessage 1 2 (some "hi") none [1, 2] 9 9 demoStore =
      (.ok nm, demoStore ++ [nm]) ∧ nm.deletedForEveryone = false := by
  refine ⟨?_, ?_, ?_⟩
  · exact (c3_send_message_contract 1 2 (some "") none [1, 2] 9 9 demoStore).1 (by decide)
      (by decide)
  · exact (c3_send_message_contract 1 1 (some "hi") none [1, 2] 9 9 demoStore).2.1
      (Or.inl (by decide)) rfl
  · obtain ⟨nm, hm, h1, -⟩ :=
      (c3_send_message_contract 1 2 (some "hi") none [1, 2] 9 9 demoStore).2.2.2.2
        (Or.inl (by decide)) (by decide) (by decide)
    exact ⟨nm, hm, h1⟩

/-- A conditional rewrite map is the identity when no element satisfies
the condition. -/
theorem map_ite_id {α : Type} {p : α → Bool} {g : α → α} (l : List α)
    (h : ∀ m ∈ l, p m = false) : (l.map fun m => if p m then g m else m) = l := by
  induction l with
  | nil => rfl
  | cons a t ih =>
    rw [List.map_cons, if_neg (by simp [h a (by simp)]), ih (fun m hm => h m (by simp [hm]))]

/-- C4: `markMessagesAsRead viewer peer` flips `read` from false to true
exactly on the messages with sender = peer, receiver = viewer and
`read = false`; every other message — including messages sent in the
opposite direction and messages of other conversations — is returned
unchanged, and a second consecutive call affects zero messages and leaves
every message unchanged (idempotence). -/
theorem c4_mark_read_contract (myId userToChatId : Nat) (store : Store) :
    ((markMessagesAsRead myId userToChatId store).2.length = store.length) ∧
    (∀ i (h1 : i < store.length)
        (h2 : i < (markMessagesAsRead myId userToChatId store).2.length),
      (markMessagesAsRead myId userToChatId store).2.get ⟨i, h2⟩ =
        if unreadFrom userToChatId myId (store.get ⟨i, h1⟩) then
          { store.get ⟨i, h1⟩ with read := true }
        else store.get ⟨i, h1⟩) ∧
    (markMessagesAsRead myId userToChatId (markMessagesAsRead myId userToChatId store).2 =
      (0, (markMessagesAsRead myId userToChatId store).2)) := by
  have hall : ∀ m ∈ (markMessagesAsRead myId userToChatId store).2,
      unreadFrom userToChatId myId m = false := by
    intro m hm
    rw [markMessagesAsRead] at hm
    simp only [List.mem_map] at hm
    obtain ⟨m0, hm0, rfl⟩ := hm
    by_cases h : unreadFrom userToChatId myId m0 = true
    · rw [if_pos h]
      simp [unreadFrom]
    · rw [if_neg h]
      exact Bool.eq_false_iff.mpr h
  refine ⟨by simp [markMessagesAsRead], ?_, ?_⟩
  · intro i h1 h2
    simp [markMessagesAsRead, List.get_eq_getElem, List.getElem_map]
  · rw [markMessagesAsRead]
    refine Prod.ext ?_ ?_
    · exact List.countP_eq_zero.mpr (fun m hm => by simp [hall m hm])
    · exact map_ite_id _ hall

/-- Witness for C4 at concrete inputs: in `demoStore`, marking 2→1
messages read for viewer 1 flips `demoMsgB`, leaves `demoMsgA`
(the opposite direction) unchanged, and a second call is a no-op with
zero affected. -/
theorem c4_witness :
    (markMessagesAsRead 1 2 demoStore).2.get ⟨1, by decide⟩ = { demoMsgB with read := true } ∧
    (markMessagesAsRead 1 2 demoStore).2.get ⟨0, by decide⟩ = demoMsgA ∧
    markMessagesAsRead 1 2 (markMessagesAsRead 1 2 demoStore).2 =
      (0, (markMessagesAsRead 1 2 demoStore).2) := by
  have h := c4_mark_read_contract 1 2 demoStore
  refine ⟨?_, ?_, h.2.2⟩
  · rw [h.2.1 1 (by decide) (by decide)]
    decide
  · rw [h.2.1 0 (by decide) (by decide)]
    decide

/-- `sendMessage` either leaves the store unchanged (failure) or appends
one record. -/
theorem sendMessage_snd (a b : Nat) (t img : Option String) (us : List Nat)
    (fid now : Nat) (s : Store) :
    (sendMessage a b t img us fid now s).2 = s ∨
    ∃ nm, (sendMessage a b t img us fid now s).2 = s ++ [nm] := by
  rw [sendMessage]
  split
  · exact Or.inl rfl
  · split
    · exact Or.inl rfl
    · split
      · exact Or.inl rfl
      · exact Or.inr ⟨_, rfl⟩

/-- `deleteMessageForEveryone` either leaves the store unchanged (failure)
or rewrites it with the flag-setting map. -/
theorem deleteForEveryone_snd (u mid : Nat) (s : Store) :
    (deleteMessageForEveryone u mid s).2 = s ∨
    (deleteMessageForEveryone u mid s).2 =
      s.map fun m => if m.id == mid then { m with deletedForEveryone := true } else m := by
  rw [deleteMessageForEveryone]
  cases h : findById mid s with
  | none => exact Or.inl rfl
  | some message =>
    dsimp only
    split
    · exact Or.inl rfl
    · exact Or.inr rfl

/-- `deleteMessageForMe` either leaves the store unchanged (failure) or
rewrites it with the `deletedFor`-appending map. -/
theorem deleteForMe_snd (u mid : Nat) (s : Store) :
    (deleteMessageForMe u mid s).2 = s ∨
    (deleteMessageForMe u mid s).2 =
      s.map fun m => if m.id == mid then { m with deletedFor := m.deletedFor ++ [u] } else m := by
  rw [deleteMessageForMe]
  cases h : findById mid s with
  | none => exact Or.inl rfl
  | some message =>
    dsimp only
    split
    · exact Or.inl rfl
    · split
      · exact Or.inl rfl
      · exact Or.inr rfl

/-- Positional preservation through a per-record map: length, id, and a
true `deletedForEveryone` flag are carried to the image. -/
theorem map_preserves {f : Message → Message} (hid : ∀ m, (f m).id = m.id)
    (hdel : ∀ m, m.deletedForEveryone = true → (f m).deletedForEveryone = true)
    (s : Store) (i : Nat) (h1 : i < s.length) :
    i < (s.map f).length ∧
    ∀ h2 : i < (s.map f).length,
      ((s.map f).get ⟨i, h2⟩).id = (s.get ⟨i, h1⟩).id ∧
      ((s.get ⟨i, h1⟩).deletedForEveryone = true →
        ((s.map f).get ⟨i, h2⟩).deletedForEveryone = true) := by
  refine ⟨by simpa using h1, fun h2 => ?_⟩
  have hg : (s.map f).get ⟨i, h2⟩ = f (s.get ⟨i, h1⟩) := by
    simp [List.get_eq_getElem, List.getElem_map]
  rw [hg]
  exact ⟨hid _, hdel _⟩

/-- Every store operation preserves the position, the id and a true
`deletedForEveryone` flag of every existing record. -/
theorem applyOp_preserves (s : Store) (op : Op) (i : Nat) (h1 : i < s.length) :
    i < (applyOp s op).length ∧
    ∀ h2 : i < (applyOp s op).length,
      ((applyOp s op).get ⟨i, h2⟩).id = (s.get ⟨i, h1⟩).id ∧
      ((s.get ⟨i, h1⟩).deletedForEveryone = true →
        ((applyOp s op).get ⟨i, h2⟩).deletedForEveryone = true) := by
  cases op with
  | send a b t img us fid now =>
    simp only [applyOp]
    rcases sendMessage_snd a b t img us fid now s with h | ⟨nm, h⟩ <;> rw [h]
    · exact ⟨h1, fun h2 => ⟨rfl, fun hd => hd⟩⟩
    · refine ⟨by simp; omega, fun h2 => ?_⟩
      have hg : (s ++ [nm]).get ⟨i, h2⟩ = s.get ⟨i, h1⟩ := by
        simp [List.get_eq_getElem]
        rw [List.getElem_append_left]
      rw [hg]
      exact ⟨rfl, fun hd => hd⟩
  | markRead a b =>
    simp only [applyOp, markMessagesAsRead]
    exact map_preserves (fun m => by split <;> rfl)
      (fun m hd => by split <;> exact hd) s i h1
  | delForEveryone u mid =>
    simp only [applyOp]
    rcases deleteForEveryone_snd u mid s with h | h <;> rw [h]
    · exact ⟨h1, fun h2 => ⟨rfl, fun hd => hd⟩⟩
    · exact map_preserves (fun m => by split <;> rfl)
        (fun m hd => by split <;> first | rfl | exact hd) s i h1
  | delForMe u mid =>
    simp only [applyOp]
    rcases deleteForMe_snd u mid s with h | h <;> rw [h]
    · exact ⟨h1, fun h2 => ⟨rfl, fun hd => hd⟩⟩
    · exact map_preserves (fun m => by split <;> rfl)
        (fun m hd => by split <;> exact hd) s i h1
  | pinOp a mid now =>
    simp only [applyOp, pinMessage]
    exact map_preserves (fun m => by dsimp [applyPinOp]; split <;> rfl)
      (fun m hd => by dsimp [applyPinOp]; split <;> exact hd) s i h1
  | unpinOp mid =>
    simp only [applyOp, unpinMessage]
    exact map_preserves (fun m => by dsimp [applyPinOp]; split <;> rfl)
      (fun m hd => by dsimp [applyPinOp]; split <;> exact hd) s i h1

/-- Iterated version of `applyOp_preserves` over any operation sequence. -/
theorem applyOps_preserves (ops : List Op) (s : Store) (i : Nat) (h1 : i < s.length) :
    i < (applyOps s ops).length ∧
    ∀ h2 : i < (applyOps s ops).length,
      ((applyOps s ops).get ⟨i, h2⟩).id = (s.get ⟨i, h1⟩).id ∧
      ((s.get ⟨i, h1⟩).deletedForEveryone = true →
        ((applyOps s ops).get ⟨i, h2⟩).deletedForEveryone = true) := by
  induction ops generalizing s with
  | nil => exact ⟨h1, fun h2 => ⟨rfl, fun hd => hd⟩⟩
  | cons op rest ih =>
    have h' := applyOp_preserves s op i h1
    have h'' := ih (applyOp s op) h'.1
    simp only [applyOps, List.foldl_cons] at *
    refine ⟨h''.1, fun h2 => ?_⟩
    have ha := h'.2 h'.1
    have hb := h''.2 h2
    exact ⟨hb.1.trans ha.1, fun hd => hb.2 (ha.2 hd)⟩

/-- C5: `deleteMessageForEveryone` fails with `NotFoundError` when the
message is absent and with `ForbiddenError` when the actor is not the
sender, both failures leaving the store unchanged; when the actor is the
sender it sets `deletedForEveryone := true` on the message, and a true
`deletedForEveryone` flag survives every subsequent operation sequence. -/
theorem c5_delete_for_everyone_contract (userId messageId : Nat) (store : Store) :
    (findById messageId store = none →
      deleteMessageForEveryone userId messageId store = (.error .notFoundError, store)) ∧
    (∀ m, findById messageId store = some m → m.senderId ≠ userId →
      deleteMessageForEveryone userId messageId store = (.error .forbiddenError, store)) ∧
    (∀ m, findById messageId store = some m → m.senderId = userId →
      (deleteMessageForEveryone userId messageId store).1 = .ok () ∧
      ∀ m' ∈ (deleteMessageForEveryone userId messageId store).2,
        m'.id = messageId → m'.deletedForEveryone = true) ∧
    (∀ ops i (h1 : i < store.length) (h2 : i < (applyOps store ops).length),
      (store.get ⟨i, h1⟩).deletedForEveryone = true →
        ((applyOps store ops).get ⟨i, h2⟩).deletedForEveryone = true) := by
  refine ⟨?_, ?_, ?_, ?_⟩
  · intro h
    rw [deleteMessageForEveryone, h]
  · intro m hm hne
    rw [deleteMessageForEveryone, hm]
    dsimp only
    rw [if_pos (by simpa using hne)]
  · intro m hm he
    rw [deleteMessageForEveryone, hm]
    dsimp only
    rw [if_neg (by simp [he])]
    refine ⟨rfl, ?_⟩
    intro m' hm' hid
    simp only [List.mem_map] at hm'
    obtain ⟨m0, hm0, rfl⟩ := hm'
    by_cases h0 : (m0.id == messageId) = true
    · rw [if_pos h0] at hid ⊢
    · rw [if_neg h0] at hid
      exact absurd (by simp [hid]) h0
  · intro ops i h1 h2 hd
    exact ((applyOps_preserves ops store i h1).2 h2).2 hd

/-- Witness for C5 at concrete inputs: user 2 cannot delete `demoMsgA`
(sent by user 1) for everyone; user 1 can, after which the record carries
the flag, and the flag survives a subsequent mark-read operation. -/
theorem c5_witness :
    deleteMessageForEveryone 2 1 demoStore = (.error .forbiddenError, demoStore) ∧
    (deleteMessageForEveryone 1 1 demoStore).1 = .ok () ∧
    ((applyOps (deleteMessageForEveryone 1 1 demoStore).2 [.markRead 1 2]).get
      ⟨0, by decide⟩).deletedForEveryone = true := by
  have h := c5_delete_for_everyone_contract 2 1 demoStore
  have h' := c5_delete_for_everyone_contract 1 1 demoStore
  refine ⟨h.2.1 demoMsgA (by decide) (by decide), (h'.2.2.1 demoMsgA (by decide) rfl).1, ?_⟩
  have hmono := c5_delete_for_everyone_contract 1 1 (deleteMessageForEveryone 1 1 demoStore).2
  exact hmono.2.2.2 [.markRead 1 2] 0 (by decide) (by decide) (by decide)

/-- `findById` commutes with a per-record map that preserves ids. -/
theorem findById_map {g : Message → Message} (hg : ∀ m, (g m).id = m.id)
    (mid : Nat) (s : Store) :
    findById mid (s.map g) = (findById mid s).map g := by
  induction s with
  | nil => rfl
  | cons a t ih =>
    rw [List.map_cons]
    by_cases h : (a.id == mid) = true
    · have hga : ((g a).id == mid) = true := by simpa [hg a] using h
      dsimp only [findById]
      simp only [List.find?_cons, hga, h]
      rfl
    · have hga : ((g a).id == mid) = false := by
        simpa [hg a] using Bool.eq_false_iff.mpr h
      dsimp only [findById]
      simp only [List.find?_cons, hga, Bool.eq_false_iff.mpr h]
      exact ih

/-- `filter` commutes with a per-record map that preserves the filter. -/
theorem filter_map_comm {g : Message → Message} {p : Message → Bool}
    (hp : ∀ m, p (g m) = p m) (s : Store) :
    (s.map g).filter p = (s.filter p).map g := by
  induction s with
  | nil => rfl
  | cons a t ih =>
    rw [List.map_cons, List.filter_cons, List.filter_cons, hp a]
    by_cases h : p a = true
    · rw [if_pos h, if_pos h, List.map_cons, ih]
    · rw [if_neg h, if_neg h, ih]

/-- The `deletedFor`-appending map of `deleteMessageForMe` preserves ids. -/
theorem delForMeMap_id (u mid : Nat) (m : Message) :
    (if m.id == mid then { m with deletedFor := m.deletedFor ++ [u] } else m).id = m.id := by
  split <;> rfl

/-- Appending a different user to `deletedFor` does not change any other
viewer's conversation filter. -/
theorem conversationVisible_delForMe (v w u mid : Nat) (hvu : v ≠ u) (m : Message) :
    conversationVisible v w
      (if m.id == mid then { m with deletedFor := m.deletedFor ++ [u] } else m) =
    conversationVisible v w m := by
  split
  · simp [conversationVisible, hvu]
  · rfl

/-- C6: `deleteMessageForMe` fails with `NotFoundError` when the message is
absent, with `ForbiddenError` when the actor is neither sender nor
receiver, and with `AlreadyDeletedError` when the actor is already in
`deletedFor`; in particular a second consecutive call by the same actor
fails with `AlreadyDeletedError` and changes nothing, and neither call
changes which messages any other viewer's conversation query returns. -/
theorem c6_delete_for_me_contract (userId messageId : Nat) (store : Store) :
    (findById messageId store = none →
      deleteMessageForMe userId messageId store = (.error .notFoundError, store)) ∧
    (∀ m, findById messageId store = some m →
      m.senderId ≠ userId → m.receiverId ≠ userId →
      deleteMessageForMe userId messageId store = (.error .forbiddenError, store)) ∧
    (∀ m, findById messageId store = some m →
      (m.senderId = userId ∨ m.receiverId = userId) → userId ∈ m.deletedFor →
      deleteMessageForMe userId messageId store = (.error .alreadyDeletedError, store)) ∧
    ((deleteMessageForMe userId messageId store).1 = .ok () →
      deleteMessageForMe userId messageId (deleteMessageForMe userId messageId store).2 =
        (.error .alreadyDeletedError, (deleteMessageForMe userId messageId store).2)) ∧
    (∀ viewer peer, viewer ≠ userId →
      (getMessagesByUserId viewer peer (deleteMessageForMe userId messageId store).2).map
          (fun m => m.id) =
        (getMessagesByUserId viewer peer store).map (fun m => m.id)) := by
  refine ⟨?_, ?_, ?_, ?_, ?_⟩
  · intro h
    rw [deleteMessageForMe, h]
  · intro m hm hs hr
    rw [deleteMessageForMe, hm]
    dsimp only
    rw [if_pos (by simp [hs, hr])]
  · intro m hm hpart hmem
    rw [deleteMessageForMe, hm]
    dsimp only
    rw [if_neg (by rcases hpart with h | h <;> simp [h])]
    rw [if_pos (by simpa [List.contains] using List.elem_iff.mpr hmem)]
  · intro hok
    rw [deleteMessageForMe] at hok
    cases hm : findById messageId store with
    | none => rw [hm] at hok; cases hok
    | some m =>
      rw [hm] at hok
      dsimp only at hok
      by_cases hforb : (m.senderId != userId && m.receiverId != userId) = true
      · rw [if_pos hforb] at hok; cases hok
      · rw [if_neg hforb] at hok
        by_cases hdel : m.deletedFor.contains userId = true
        · rw [if_pos hdel] at hok; cases hok
        · rw [if_neg hdel] at hok
          have hsnd : (deleteMessageForMe userId messageId store).2 =
              store.map fun m : Message =>
                if m.id == messageId then { m with deletedFor := m.deletedFor ++ [userId] }
                else m := by
            rw [deleteMessageForMe, hm]
            dsimp only
            rw [if_neg hforb, if_neg hdel]
          rw [hsnd, deleteMessageForMe, findById_map (delForMeMap_id userId messageId), hm]
          simp only [Option.map_some']
          have hmid : (m.id == messageId) = true := by
            have := List.find?_some (by simpa [findById] using hm)
            simpa using this
          rw [if_pos hmid]
          dsimp only
          have hforb2 : ¬ (m.senderId != userId && m.receiverId != userId) = true := hforb
          rw [if_neg hforb2]
          rw [if_pos (by simp [List.contains])]
  · intro viewer peer hvp
    rcases deleteForMe_snd userId messageId store with h | h <;> rw [h]
    rw [getMessagesByUserId,
      filter_map_comm (conversationVisible_delForMe viewer peer userId messageId hvp),
      ← getMessagesByUserId, List.map_map]
    apply List.map_congr_left
    intro m hm
    exact delForMeMap_id userId messageId m

/-- Witness for C6 at concrete inputs: user 3 (not a participant) cannot
delete `demoMsgA` for themselves; user 2 can, a second identical call
fails with `AlreadyDeletedError`, and user 1's conversation with 2 still
lists the same message ids. -/
theorem c6_witness :
    deleteMessageForMe 3 1 demoStore = (.error .forbiddenError, demoStore) ∧
    deleteMessageForMe 2 1 (deleteMessageForMe 2 1 demoStore).2 =
      (.error .alreadyDeletedError, (deleteMessageForMe 2 1 demoStore).2) ∧
    (getMessagesByUserId 1 2 (deleteMessageForMe 2 1 demoStore).2).map (fun m => m.id) =
      (getMessagesByUserId 1 2 demoStore).map (fun m => m.id) := by
  have h3 := c6_delete_for_me_contract 3 1 demoStore
  have h2 := c6_delete_for_me_contract 2 1 demoStore
  exact ⟨h3.2.1 demoMsgA (by decide) (by decide) (by decide),
    h2.2.2.2.1 rfl,
    h2.2.2.2.2 1 2 (by decide)⟩

/-- C7: the client `sendMessage` reconciliation: a success leaves the
message list equal to the pre-send list with the server-confirmed record
appended and no entry with the temporary optimistic id remaining; a
failure restores the list exactly to the pre-send list. -/
theorem c7_client_send_reconciliation (pre : List ClientMessage)
    (optimistic confirmed : ClientMessage) :
    ((clientSendMessage pre optimistic (some confirmed)).2 = pre ++ [confirmed]) ∧
    (optimistic.id ∉ pre.map (fun m => m.id) → confirmed.id ≠ optimistic.id →
      optimistic.id ∉
        ((clientSendMessage pre optimistic (some confirmed)).2.map (fun m => m.id))) ∧
    ((clientSendMessage pre optimistic none).2 = pre) := by
  refine ⟨rfl, ?_, rfl⟩
  intro hfresh hne
  simp only [clientSendMessage]
  rw [List.map_append, List.mem_append]
  rintro (h | h)
  · exact hfresh h
  · simp only [List.map_cons, List.map_nil, List.mem_singleton] at h
    exact hne h.symm

/-- Witness for C7 at concrete inputs: from an empty pre-send list, a
confirmed send yields exactly the server record and no `temp-1` id; the
failing send restores the empty list. -/
theorem c7_witness :
    (clientSendMessage [] (optimisticMessage "temp-1" 1 2 (some "hi") none 5)
        (some { id := "m1", senderId := 1, receiverId := 2 })).2 =
      [{ id := "m1", senderId := 1, receiverId := 2 }] ∧
    "temp-1" ∉ ((clientSendMessage [] (optimisticMessage "temp-1" 1 2 (some "hi") none 5)
        (some { id := "m1", senderId := 1, receiverId := 2 })).2.map (fun m => m.id)) ∧
    (clientSendMessage [] (optimisticMessage "temp-1" 1 2 (some "hi") none 5) none).2 = [] := by
  have h := c7_client_send_reconciliation [] (optimisticMessage "temp-1" 1 2 (some "hi") none 5)
    { id := "m1", senderId := 1, receiverId := 2 }
  exact ⟨h.1, h.2.1 (by decide) (by decide), h.2.2⟩

/-- Each pin-state operation establishes the pin-fields invariant
outright. -/
theorem pinConsistent_applyPinOp (m : Message) (op : PinOp) :
    pinFieldsConsistent (applyPinOp m op) := by
  cases op <;> simp [pinFieldsConsistent, applyPinOp]

/-- The pin-fields invariant survives any sequence of pin/unpin
operations. -/
theorem pinConsistent_foldl (ops : List PinOp) (m : Message)
    (h : pinFieldsConsistent m) : pinFieldsConsistent (ops.foldl applyPinOp m) := by
  induction ops generalizing m with
  | nil => exact h
  | cons op rest ih => exact ih _ (pinConsistent_applyPinOp m op)

/-- C8: pin then unpin restores `isPinned = false`, `pinnedAt = none`,
`pinnedBy = none`, and after any sequence of pin/unpin operations
`pinnedAt`/`pinnedBy` are both null exactly when `isPinned` is false.
The pin transform is modelled from the spec (its controller body is not
in the snapshot); the unpin transform matches the client
`messageUnpinned` handler. -/
theorem c8_pin_round_trip_and_invariant (m : Message) (actor now : Nat) (ops : List PinOp) :
    ((applyPinOp (applyPinOp m (.pin actor now)) .unpin).isPinned = false ∧
     (applyPinOp (applyPinOp m (.pin actor now)) .unpin).pinnedAt = none ∧
     (applyPinOp (applyPinOp m (.pin actor now)) .unpin).pinnedBy = none) ∧
    (pinFieldsConsistent m → pinFieldsConsistent (ops.foldl applyPinOp m)) := by
  exact ⟨⟨rfl, rfl, rfl⟩, pinConsistent_foldl ops m⟩

/-- Witness for C8 at concrete inputs: pinning then unpinning `demoMsgA`
clears all three pin fields, and a pin/unpin/pin sequence keeps the
invariant. -/
theorem c8_witness :
    (applyPinOp (applyPinOp demoMsgA (.pin 2 7)) .unpin).isPinned = false ∧
    pinFieldsConsistent
      ([PinOp.pin 2 7, PinOp.unpin, PinOp.pin 1 9].foldl applyPinOp demoMsgA) := by
  have h := c8_pin_round_trip_and_invariant demoMsgA 2 7
    [PinOp.pin 2 7, PinOp.unpin, PinOp.pin 1 9]
  exact ⟨h.1.1, h.2 (by decide)⟩

/-- C9 counterexample: the `markMessagesAsRead` path emits an
`unreadCountUpdate` event with no payload at all, so not every emission of
the event carries the sender's id. -/
theorem c9_counterexample :
    (7, SocketEvent.unreadCountUpdate none) ∈ markMessagesAsReadEvents 2 5 1 (some 7) ∧
    carriesSenderId (SocketEvent.unreadCountUpdate none) = false := by
  exact ⟨by decide, rfl⟩

/-- C9 (amended): the `unreadCountUpdate` emitted on the new-message path
always carries the sender's id in its payload, while the one emitted on
the mark-read path is emitted with no payload (the client guards for the
missing field). -/
theorem c9_unread_event_payloads (senderId myId readAt modifiedCount : Nat) (m : Message)
    (receiverSocketId senderSocketId : Option Nat) :
    (∀ t p, (t, SocketEvent.unreadCountUpdate p) ∈
        sendMessageEvents senderId m receiverSocketId → p = some senderId) ∧
    (∀ t p, (t, SocketEvent.unreadCountUpdate p) ∈
        markMessagesAsReadEvents myId readAt modifiedCount senderSocketId → p = none) := by
  constructor
  · intro t p hp
    cases receiverSocketId with
    | none => cases hp
    | some sid =>
      simp only [sendMessageEvents, List.mem_cons, List.not_mem_nil, or_false] at hp
      rcases hp with h | h
      · simp at h
      · simp only [Prod.mk.injEq, SocketEvent.unreadCountUpdate.injEq] at h
        exact h.2
  · intro t p hp
    rw [markMessagesAsReadEvents.eq_def] at hp
    split at hp
    · cases senderSocketId with
      | none => cases hp
      | some sid =>
        simp only [List.mem_cons, List.not_mem_nil, or_false] at hp
        rcases hp with h | h
        · simp at h
        · simp only [Prod.mk.injEq, SocketEvent.unreadCountUpdate.injEq] at h
          exact h.2
    · cases hp

/-- Witness for C9 (amended) at concrete inputs: both emission paths are
exercised with connected sockets, and the theorem pins their payloads. -/
theorem c9_witness :
    ((7, SocketEvent.unreadCountUpdate (some 1)) ∈ sendMessageEvents 1 demoMsgA (some 7)) ∧
    ((7, SocketEvent.unreadCountUpdate none) ∈ markMessagesAsReadEvents 2 5 1 (some 7)) ∧
    (some 1 : Option Nat) = some 1 ∧ (none : Option Nat) = none := by
  refine ⟨by decide, by decide, ?_, ?_⟩
  · exact (c9_unread_event_payloads 1 2 5 1 demoMsgA (some 7) (some 7)).1 7 (some 1) (by decide)
  · exact (c9_unread_event_payloads 1 2 5 1 demoMsgA (some 7) (some 7)).2 7 none (by decide)

/-- C10: the client `updateUnreadCount` touches only the chat entry whose
id equals `userId` — incrementing its `unreadCount` by exactly one
(defaulting a missing count to 0) when `increment` is true, or resetting
it to zero when false — and leaves every other entry, and every other
field of the matching entry, unchanged; with no matching entry the list
is unchanged. -/
theorem c10_update_unread_count_frame (userId : Nat) (increment : Bool) (chats : List Chat) :
    ((updateUnreadCount userId increment chats).length = chats.length) ∧
    (∀ i (h1 : i < chats.length) (h2 : i < (updateUnreadCount userId increment chats).length),
      (updateUnreadCount userId increment chats).get ⟨i, h2⟩ =
        if (chats.get ⟨i, h1⟩).id = userId then updateChatEntry increment (chats.get ⟨i, h1⟩)
        else chats.get ⟨i, h1⟩) ∧
    (∀ c : Chat, (updateChatEntry increment c).id = c.id ∧
      (updateChatEntry increment c).fullName = c.fullName ∧
      (updateChatEntry increment c).unreadCount =
        some (if increment then c.unreadCount.getD 0 + 1 else 0)) ∧
    ((∀ c ∈ chats, c.id ≠ userId) → updateUnreadCount userId increment chats = chats) := by
  refine ⟨by simp [updateUnreadCount], ?_, fun c => ⟨rfl, rfl, rfl⟩, ?_⟩
  · intro i h1 h2
    simp only [updateUnreadCount, List.get_eq_getElem, List.getElem_map]
    by_cases h : chats[i].id = userId
    · rw [if_pos (by simpa using h), if_pos h]
    · rw [if_neg (by simpa using h), if_neg h]
  · intro hnone
    rw [updateUnreadCount]
    exact map_ite_id chats (fun c hc => by simpa using hnone c hc)

/-- Witness for C10 at concrete inputs: incrementing for user 1 bumps only
the first entry's count, keeps its other fields and the second entry, and
an unmatched id leaves the list unchanged. -/
theorem c10_witness :
    (updateUnreadCount 1 true [⟨1, "ann", some 2⟩, ⟨2, "bob", some 0⟩]).get ⟨0, by decide⟩ =
      ⟨1, "ann", some 3⟩ ∧
    (updateUnreadCount 1 true [⟨1, "ann", some 2⟩, ⟨2, "bob", some 0⟩]).get ⟨1, by decide⟩ =
      ⟨2, "bob", some 0⟩ ∧
    updateUnreadCount 9 true [⟨1, "ann", some 2⟩] = [⟨1, "ann", some 2⟩] := by
  have h := c10_update_unread_count_frame 1 true [⟨1, "ann", some 2⟩, ⟨2, "bob", some 0⟩]
  have h9 := c10_update_unread_count_frame 9 true [⟨1, "ann", some 2⟩]
  refine ⟨?_, ?_, h9.2.2.2 (by decide)⟩
  · rw [h.2.1 0 (by decide) (by decide)]
    decide
  · rw [h.2.1 1 (by decide) (by decide)]
    decide

end Chatify
